import Mathlib

/-!
Shallow embedding of the TSMS planning module
(`app/models/planning.py`, `app/blueprints/planning/routes.py`,
`app/blueprints/planning/forms.py`) and proofs about its
progress-aggregation and authorization logic.

Python `int` is modelled as `Int`/`Nat`, Python `None` as `Option.none`,
dates and datetimes as abstract `Nat` timestamps.  Python float division
`completed / total` followed by `* 100` and `int(...)` (the body of
`Plan.calculate_progress`) is modelled exactly as IEEE-754 binary64
arithmetic with round-to-nearest, ties-to-even, over nonnegative finite
values (the only values reachable in that computation): a binary64 value
is a pair `m * 2 ^ g` and each operation rounds the exact rational result.
-/

namespace TSMS

/-! ### Binary64 model (for `Plan.calculate_progress`) -/

/-- Fuel-bounded floor of the base-2 logarithm: `nlog2 fuel n = ⌊log₂ n⌋`
whenever `1 ≤ n < 2 ^ fuel`. -/
def nlog2 : Nat → Nat → Nat
  | 0, _ => 0
  | fuel+1, n => if n ≤ 1 then 0 else nlog2 fuel (n / 2) + 1

/-- Round the rational `a / b` (with `b ≠ 0`) to the nearest integer,
ties to even. -/
def rhe (a b : Nat) : Nat :=
  if 2 * (a % b) < b then a / b
  else if b < 2 * (a % b) then a / b + 1
  else if a / b % 2 = 0 then a / b else a / b + 1

/-- Floor of the base-2 logarithm of the positive rational `a / b`. -/
def ratLog2 (a b : Nat) : Int :=
  let F := nlog2 b b + 1
  let t := a * 2 ^ F / b
  (nlog2 t t : Int) - (F : Int)

/-- A nonnegative binary64 value, viewed as the rational `m * 2 ^ g`. -/
structure F64 where
  m : Nat
  g : Int
deriving DecidableEq, Repr

/-- Rational value denoted by an `F64`. -/
def F64.val (x : F64) : ℚ := (x.m : ℚ) * (2 : ℚ) ^ x.g

/-- Round the positive rational `a / b` to binary64 (round to nearest,
ties to even, with gradual underflow at `2 ^ (-1074)`). -/
def roundPos (a b : Nat) : F64 :=
  let E := ratLog2 a b
  let g : Int := max (E - 52) (-1074)
  if 0 ≤ g then ⟨rhe a (b * 2 ^ g.toNat), g⟩
  else ⟨rhe (a * 2 ^ (-g).toNat) b, g⟩

/-- Binary64 division of the nonnegative integers `a` and `b`:
Python's `a / b` true division (for `b ≠ 0`). -/
def fdiv (a b : Nat) : F64 :=
  if a = 0 ∨ b = 0 then ⟨0, 0⟩ else roundPos a b

/-- Binary64 multiplication of `x` by the small integer constant `c`
(exact product, then one rounding): Python's `x * c`. -/
def F64.mulNat (x : F64) (c : Nat) : F64 :=
  if 0 ≤ x.g then fdiv (c * x.m * 2 ^ x.g.toNat) 1
  else fdiv (c * x.m) (2 ^ (-x.g).toNat)

/-- Truncation toward zero of a nonnegative binary64 value:
Python's `int(x)`. -/
def F64.truncNat (x : F64) : Nat :=
  if 0 ≤ x.g then x.m * 2 ^ x.g.toNat else x.m / 2 ^ (-x.g).toNat

/-! ### Enumerations (`app/models/planning.py`, `app/models/user.py`) -/

/-- `PlanStatus` enum. -/
inductive PlanStatus
  | draft | active | completed | cancelled | on_hold
deriving DecidableEq, Repr

/-- `PlanType` enum. -/
inductive PlanType
  | academic | project | research | internship | other
deriving DecidableEq, Repr

/-- `TaskStatus` enum. -/
inductive TaskStatus
  | pending | in_progress | completed | overdue | cancelled
deriving DecidableEq, Repr

/-- `TaskPriority` enum. -/
inductive TaskPriority
  | low | medium | high | urgent
deriving DecidableEq, Repr

/-- `ObjectiveStatus` enum. -/
inductive ObjectiveStatus
  | pending | completed
deriving DecidableEq, Repr

/-- `UserRole` enum (admin, supervisor, teacher). -/
inductive UserRole
  | admin | supervisor | teacher
deriving DecidableEq, Repr

/-! ### Directory entities (`app/models/user.py`, `app/models/student.py`,
`app/models/teacher.py`) — only the fields the planning module reads. -/

/-- `Teacher` profile row (only its primary key is read here). -/
structure Teacher where
  id : Nat
deriving DecidableEq, Repr

/-- `User` row: identity, role, and the optional linked teacher profile. -/
structure User where
  id : Nat
  role : UserRole
  teacher_profile : Option Teacher
deriving DecidableEq, Repr

/-- `User.is_admin`. -/
def User.is_admin (u : User) : Bool := u.role = UserRole.admin

/-- `User.is_supervisor`. -/
def User.is_supervisor (u : User) : Bool := u.role = UserRole.supervisor

/-- `Student` row: the ownership edges used by the authorization
predicates. -/
structure Student where
  id : Nat
  assigned_teacher_id : Option Nat
  supervisor_id : Option Nat
deriving DecidableEq, Repr

/-! ### Planning aggregate (`app/models/planning.py`) -/

/-- `Task` row. -/
structure Task where
  id : Nat
  plan_id : Nat
  title : String
  description : Option String
  status : TaskStatus
  priority : TaskPriority
  start_date : Option Nat
  due_date : Option Nat
  completed_at : Option Nat
  assigned_to_id : Option Nat
  notes : Option String
  order : Int
deriving DecidableEq, Repr

/-- `Objective` row (single-student plans). -/
structure Objective where
  id : Nat
  plan_id : Nat
  text : String
  status : ObjectiveStatus
  order : Int
  completed_at : Option Nat
deriving DecidableEq, Repr

/-- Modelled from the spec: the `StudentPlan` join entity is imported by
`app/models/__init__.py` and used throughout the routes but its class
definition is absent from `src/app/models/planning.py`; per the spec it
binds one Student to one multi-student Plan and carries its own status.
The `student` field mirrors the ORM relationship the routes traverse. -/
structure StudentPlan where
  id : Nat
  student_id : Nat
  plan_id : Nat
  status : PlanStatus
  student : Option Student
deriving DecidableEq, Repr

/-- Modelled from the spec: the `StudentObjective` checklist item of a
`StudentPlan` (multi-student plans); its class definition is absent from
`src/app/models/planning.py`. -/
structure StudentObjective where
  id : Nat
  student_plan_id : Nat
  text : String
  status : ObjectiveStatus
  order : Nat
deriving DecidableEq, Repr

/-- `Plan` row together with the ORM relationships the planning code
traverses (`student`, `student_plans`, `tasks`, `plan_objectives`).
`objectives` is the raw text column; `plan_objectives` the `Objective`
rows. -/
structure Plan where
  id : Nat
  title : String
  description : Option String
  student_id : Option Nat
  created_by_id : Option Nat
  supervisor_id : Option Nat
  plan_type : PlanType
  status : PlanStatus
  start_date : Nat
  end_date : Option Nat
  objectives : Option String
  notes : Option String
  progress_percentage : Int
  student : Option Student
  student_plans : List StudentPlan
  tasks : List Task
  plan_objectives : List Objective
deriving DecidableEq, Repr

/-- `Plan.objective_count`: `self.plan_objectives.count()`. -/
def Plan.objective_count (p : Plan) : Nat := p.plan_objectives.length

/-- `Plan.completed_objective_count`:
`self.plan_objectives.filter_by(status=ObjectiveStatus.COMPLETED).count()`. -/
def Plan.completed_objective_count (p : Plan) : Nat :=
  (p.plan_objectives.filter fun o => o.status = ObjectiveStatus.completed).length

/-- `Plan.calculate_progress`:
`total = objective_count; if total == 0: return 0;`
`return int((completed / total) * 100)` with binary64 arithmetic. -/
def Plan.calculate_progress (p : Plan) : Int :=
  let total := p.objective_count
  if total = 0 then 0
  else (((fdiv p.completed_objective_count total).mulNat 100).truncNat : Int)

/-- `Plan.update_progress`: stores the recomputed progress and
auto-completes an active plan at 100. -/
def Plan.update_progress (p : Plan) : Plan :=
  let p1 := { p with progress_percentage := p.calculate_progress }
  if p1.progress_percentage = 100 ∧ p1.status = PlanStatus.active then
    { p1 with status := PlanStatus.completed }
  else p1

/-- `Plan.activate`. -/
def Plan.activate (p : Plan) : Plan :=
  { p with status := PlanStatus.active }

/-- `Plan.complete`: forces status `completed` and progress 100. -/
def Plan.complete (p : Plan) : Plan :=
  { p with status := PlanStatus.completed, progress_percentage := 100 }

/-- `Plan.cancel`. -/
def Plan.cancel (p : Plan) : Plan :=
  { p with status := PlanStatus.cancelled }

/-- `Task.start` (`today` stands for `date.today()`): set status
`IN_PROGRESS`; set `start_date` only when it is unset (Python
`if not self.start_date`). -/
def Task.start (t : Task) (today : Nat) : Task :=
  let t1 := { t with status := TaskStatus.in_progress }
  if t1.start_date = none then { t1 with start_date := some today } else t1

/-- `Objective.toggle`, the part that mutates the objective itself
(`now` stands for `datetime.utcnow()`). -/
def Objective.toggleSelf (o : Objective) (now : Nat) : Objective :=
  if o.status = ObjectiveStatus.completed then
    { o with status := ObjectiveStatus.pending, completed_at := none }
  else
    { o with status := ObjectiveStatus.completed, completed_at := some now }

/-- `Objective.toggle` of the `i`-th objective of plan `p`: flip the
objective, then `self.plan.update_progress()`. -/
def Plan.toggleObjective (p : Plan) (i : Nat) (now : Nat) : Plan :=
  match p.plan_objectives[i]? with
  | none => p
  | some o =>
    Plan.update_progress
      { p with plan_objectives := p.plan_objectives.set i (o.toggleSelf now) }

/-! ### Authorization predicates (`app/blueprints/planning/routes.py`) -/

/-- `can_manage_student(student)` for the acting user `u`. -/
def can_manage_student (u : User) (student : Option Student) : Bool :=
  match student with
  | none => false
  | some s =>
    if u.is_admin then true
    else if u.is_supervisor && (s.supervisor_id == some u.id) then true
    else
      match u.teacher_profile with
      | some tp => s.assigned_teacher_id == some tp.id
      | none => false

/-- `can_manage_plan(plan)` for the acting user `u`: admin, else the
single student, else any student of the multi-student plan. -/
def can_manage_plan (u : User) (plan : Plan) : Bool :=
  if u.is_admin then true
  else
    match plan.student with
    | some s => can_manage_student u (some s)
    | none => plan.student_plans.any fun sp => can_manage_student u sp.student

/-! ### `create_plan` route (`app/blueprints/planning/routes.py`) -/

/-- Validated `PlanForm` data as the `create_plan` route reads it.
Modelled from the spec for the `student_ids` multi-select field, which is
absent from `src/app/blueprints/planning/forms.py` (the file still has the
legacy single `student_id` field the routes no longer use). -/
structure PlanFormData where
  title : String
  description : Option String
  student_ids : List Nat
  supervisor_id : Option Nat
  plan_type : PlanType
  status : PlanStatus
  start_date : Nat
  end_date : Option Nat
  objectives : Option String
  notes : Option String
deriving DecidableEq, Repr

/-- The persistent rows the `create_plan` route can insert. -/
structure PlanDB where
  plans : List Plan
  student_plans : List StudentPlan
  student_objectives : List StudentObjective
deriving DecidableEq, Repr

/-- Outcome of the `create_plan` route. -/
inductive CreateResult
  | validation_error
  | permission_error
  | created (plan_id : Nat)
deriving DecidableEq, Repr

/-- Objective text parsing in `create_plan`: split the stripped blob on
newlines, keep the stripped nonempty lines with their enumeration index
(Python `if form.objectives.data:` treats `None` and `""` as falsy). -/
def parse_objectives (txt : Option String) : List (String × Nat) :=
  match txt with
  | none => []
  | some t =>
    if t = "" then []
    else
      (t.trim.splitOn "\n").enum.filterMap fun p =>
        let l := p.2.trim
        if l = "" then none else some (l, p.1)

/-- `create_plan` route body after form validation, acting as user `u`
over the student directory `students_db` and planning store `db`:
resolve the selected students, reject an empty selection, reject a
non-manageable student, otherwise insert one `Plan`, one `StudentPlan`
per student and one `StudentObjective` per student and parsed objective
line. -/
def create_plan (u : User) (students_db : List Student) (db : PlanDB)
    (form : PlanFormData) : PlanDB × CreateResult :=
  let selected := students_db.filter fun s => form.student_ids.contains s.id
  if selected.isEmpty then (db, CreateResult.validation_error)
  else if selected.any (fun s => !u.is_admin && !can_manage_student u (some s)) then
    (db, CreateResult.permission_error)
  else
    let pid := db.plans.length
    let plan : Plan :=
      { id := pid
        title := form.title
        description := form.description
        student_id := none
        created_by_id := some u.id
        supervisor_id := form.supervisor_id
        plan_type := form.plan_type
        status := form.status
        start_date := form.start_date
        end_date := form.end_date
        objectives := form.objectives
        notes := form.notes
        progress_percentage := 0
        student := none
        student_plans := []
        tasks := []
        plan_objectives := [] }
    let objectives_list := parse_objectives form.objectives
    let new_sps := selected.enum.map fun p =>
      ({ id := db.student_plans.length + p.1
         student_id := p.2.id
         plan_id := pid
         status := form.status
         student := some p.2 } : StudentPlan)
    let new_sos := (new_sps.map fun sp =>
      objectives_list.map fun ol =>
        ({ id := 0
           student_plan_id := sp.id
           text := ol.1
           order := ol.2
           status := ObjectiveStatus.pending } : StudentObjective)).flatten
    ({ plans := db.plans ++ [plan]
       student_plans := db.student_plans ++ new_sps
       student_objectives := db.student_objectives ++ new_sos },
     CreateResult.created pid)

/-! ### Concrete sample records used by witnesses and counterexamples -/

/-- An `Objective` row with the given status. -/
def sampleObjective (st : ObjectiveStatus) : Objective :=
  { id := 0, plan_id := 1, text := "obj", status := st, order := 0,
    completed_at := none }

/-- A `Plan` row with the given status, stored progress and objectives. -/
def mkPlan (st : PlanStatus) (prog : Int) (obs : List Objective) : Plan :=
  { id := 1, title := "plan", description := none, student_id := none,
    created_by_id := none, supervisor_id := none,
    plan_type := PlanType.academic, status := st, start_date := 0,
    end_date := none, objectives := none, notes := none,
    progress_percentage := prog, student := none, student_plans := [],
    tasks := [], plan_objectives := obs }

/-- A plan with 100 objectives of which 29 are completed. -/
def plan29of100 : Plan :=
  mkPlan PlanStatus.draft 0
    (List.replicate 29 (sampleObjective ObjectiveStatus.completed) ++
     List.replicate 71 (sampleObjective ObjectiveStatus.pending))

/-- A draft plan whose single objective is completed. -/
def planAllDone : Plan :=
  mkPlan PlanStatus.draft 0 [sampleObjective ObjectiveStatus.completed]

/-- A plan whose stored progress (50) is stale: its single objective is
pending. -/
def planStale : Plan :=
  mkPlan PlanStatus.draft 50 [sampleObjective ObjectiveStatus.pending]

/-- A plan whose stored progress (0) agrees with its single pending
objective. -/
def planFresh : Plan :=
  mkPlan PlanStatus.draft 0 [sampleObjective ObjectiveStatus.pending]

/-- A teacher profile with id 7. -/
def teacher7 : Teacher := ⟨7⟩

/-- A teacher-role user linked to `teacher7`. -/
def teacherUser : User := ⟨42, UserRole.teacher, some teacher7⟩

/-- A student assigned to nobody. -/
def studentA : Student := ⟨1, none, none⟩

/-- A student assigned to teacher 7. -/
def studentB : Student := ⟨2, some 7, none⟩

/-- A student assigned to teacher 99. -/
def studentC : Student := ⟨3, some 99, none⟩

/-- A `StudentPlan` row for plan 5 and the given student. -/
def spOf (n : Nat) (s : Student) : StudentPlan :=
  ⟨n, s.id, 5, PlanStatus.active, some s⟩

/-- A three-student plan of which only `studentB` (the second) is managed
by `teacherUser`. -/
def multiPlan : Plan :=
  { mkPlan PlanStatus.active 0 [] with
    id := 5,
    student_plans := [spOf 1 studentA, spOf 2 studentB, spOf 3 studentC] }

/-- An admin user. -/
def adminUser : User := ⟨1, UserRole.admin, none⟩

/-- An empty planning store. -/
def sampleDB : PlanDB := ⟨[], [], []⟩

/-- Form data whose selected student list is empty. -/
def emptyStudentsForm : PlanFormData :=
  { title := "t", description := none, student_ids := [],
    supervisor_id := none, plan_type := PlanType.academic,
    status := PlanStatus.draft, start_date := 0, end_date := none,
    objectives := none, notes := none }

/-! ### Basic lemmas about `update_progress` -/

/-- `update_progress` stores exactly `calculate_progress`. -/
theorem update_progress_progress (p : Plan) :
    (p.update_progress).progress_percentage = p.calculate_progress := by
  unfold Plan.update_progress
  dsimp only
  split <;> rfl

/-- `update_progress` leaves the objective rows untouched. -/
theorem update_progress_objectives (p : Plan) :
    (p.update_progress).plan_objectives = p.plan_objectives := by
  unfold Plan.update_progress
  dsimp only
  split <;> rfl

/-! ### Claim theorems (non-numeric claims) -/

/-- C5: for every Plan, regardless of its current status and of its
objectives, `complete` sets the status to `completed` and the stored
progress to 100 — the explicit override wins over the derived value. -/
theorem plan_complete_overrides (p : Plan) :
    (p.complete).status = PlanStatus.completed ∧
    (p.complete).progress_percentage = 100 :=
  ⟨rfl, rfl⟩

/-- C6: for every actor, `can_manage_student` returns false when the
student argument is absent — including when the actor is an admin. -/
theorem can_manage_student_none (u : User) :
    can_manage_student u none = false :=
  rfl

/-- C10: for every Task and any current status (including the terminal
`completed` and `cancelled`), `start` sets the status to `in_progress`
with no state-machine guard, sets `start_date` to today exactly when it
was previously unset, and leaves `completed_at` and every other field
unchanged. -/
theorem task_start_spec (t : Task) (today : Nat) :
    (t.start today).status = TaskStatus.in_progress ∧
    (t.start today).start_date =
      (if t.start_date = none then some today else t.start_date) ∧
    (t.start today).completed_at = t.completed_at ∧
    (t.start today).id = t.id ∧
    (t.start today).plan_id = t.plan_id ∧
    (t.start today).title = t.title ∧
    (t.start today).description = t.description ∧
    (t.start today).priority = t.priority ∧
    (t.start today).due_date = t.due_date ∧
    (t.start today).assigned_to_id = t.assigned_to_id ∧
    (t.start today).notes = t.notes ∧
    (t.start today).order = t.order := by
  unfold Task.start
  dsimp only
  split <;> simp_all

/-- C2: `update_progress` transitions a plan's status to `completed`
exactly when the recomputed progress is 100 and the current status is
`active`; in particular a draft plan with all objectives completed keeps
status `draft`. -/
theorem update_progress_completion (p : Plan) :
    (((p.update_progress).status = PlanStatus.completed ∧
        p.status ≠ PlanStatus.completed) ↔
      (p.calculate_progress = 100 ∧ p.status = PlanStatus.active)) ∧
    ((∀ o ∈ p.plan_objectives, o.status = ObjectiveStatus.completed) →
      p.status = PlanStatus.draft →
      (p.update_progress).status = PlanStatus.draft) := by
  unfold Plan.update_progress
  dsimp only
  constructor
  · split
    · rename_i h
      simp [h.1, h.2]
    · rename_i h
      constructor
      · rintro ⟨h1, h2⟩
        exact absurd h1 h2
      · intro hcon
        exact absurd hcon h
  · intro _ hdraft
    split
    · rename_i h
      rw [hdraft] at h
      exact absurd h.2 (by decide)
    · exact hdraft

/-- C2 witness: a draft plan whose single objective is completed stays in
`draft` after `update_progress`. -/
theorem update_progress_completion_witness :
    (planAllDone.update_progress).status = PlanStatus.draft :=
  (update_progress_completion planAllDone).2 (by decide) (by decide)

/-- C8: `update_progress` modifies only `progress_percentage` and
`status`; the only status change it can make is `active` to `completed`,
so a plan in `draft`, `on_hold`, `cancelled` or `completed` keeps its
status, and every other field is unchanged. -/
theorem update_progress_frame (p : Plan) :
    ((p.update_progress).status = p.status ∨
      (p.status = PlanStatus.active ∧
        (p.update_progress).status = PlanStatus.completed)) ∧
    (p.status ≠ PlanStatus.active → (p.update_progress).status = p.status) ∧
    (p.update_progress).id = p.id ∧
    (p.update_progress).title = p.title ∧
    (p.update_progress).description = p.description ∧
    (p.update_progress).student_id = p.student_id ∧
    (p.update_progress).created_by_id = p.created_by_id ∧
    (p.update_progress).supervisor_id = p.supervisor_id ∧
    (p.update_progress).plan_type = p.plan_type ∧
    (p.update_progress).start_date = p.start_date ∧
    (p.update_progress).end_date = p.end_date ∧
    (p.update_progress).objectives = p.objectives ∧
    (p.update_progress).notes = p.notes ∧
    (p.update_progress).student = p.student ∧
    (p.update_progress).student_plans = p.student_plans ∧
    (p.update_progress).tasks = p.tasks ∧
    (p.update_progress).plan_objectives = p.plan_objectives := by
  unfold Plan.update_progress
  dsimp only
  split
  · rename_i h
    exact ⟨Or.inr ⟨h.2, rfl⟩, fun hne => absurd h.2 hne, rfl, rfl, rfl, rfl,
      rfl, rfl, rfl, rfl, rfl, rfl, rfl, rfl, rfl, rfl, rfl⟩
  · exact ⟨Or.inl rfl, fun _ => rfl, rfl, rfl, rfl, rfl, rfl, rfl, rfl, rfl,
      rfl, rfl, rfl, rfl, rfl, rfl, rfl⟩

/-- C8 witness: a stale draft plan keeps its status under
`update_progress`. -/
theorem update_progress_frame_witness :
    (planStale.update_progress).status = planStale.status :=
  (update_progress_frame planStale).2.1 (by decide)

/-! ### List lemmas for the toggle round-trip -/

/-- Replacing the `i`-th entry with one of equal status preserves the
status list. -/
theorem map_status_set (l : List Objective) (i : Nat) (a : Objective)
    (ha : ∀ h : i < l.length, a.status = (l.get ⟨i, h⟩).status) :
    (l.set i a).map Objective.status = l.map Objective.status := by
  induction l generalizing i with
  | nil => rfl
  | cons x xs ih =>
    cases i with
    | zero =>
      have hx := ha (by simp)
      simp only [List.set, List.map_cons]
      rw [show a.status = x.status from hx]
    | succ j =>
      simp only [List.set, List.map_cons]
      rw [ih j fun h => ha (Nat.succ_lt_succ h)]

/-- Two objective lists with the same status list have the same number of
completed entries. -/
theorem completed_count_congr (l₁ l₂ : List Objective)
    (h : l₁.map Objective.status = l₂.map Objective.status) :
    (l₁.filter fun o => o.status = ObjectiveStatus.completed).length =
    (l₂.filter fun o => o.status = ObjectiveStatus.completed).length := by
  induction l₁ generalizing l₂ with
  | nil =>
    cases l₂ with
    | nil => rfl
    | cons y ys => simp at h
  | cons x xs ih =>
    cases l₂ with
    | nil => simp at h
    | cons y ys =>
      simp only [List.map_cons, List.cons.injEq] at h
      obtain ⟨h1, h2⟩ := h
      simp only [List.filter_cons, h1]
      split
      · simp [ih ys h2]
      · exact ih ys h2

/-- `calculate_progress` only reads the objective status list. -/
theorem calculate_progress_congr (p q : Plan)
    (h : p.plan_objectives.map Objective.status =
      q.plan_objectives.map Objective.status) :
    p.calculate_progress = q.calculate_progress := by
  have hlen : p.objective_count = q.objective_count := by
    unfold Plan.objective_count
    rw [← List.length_map p.plan_objectives Objective.status, h,
      List.length_map]
  have hcnt : p.completed_objective_count = q.completed_objective_count :=
    completed_count_congr _ _ h
  unfold Plan.calculate_progress
  rw [hlen, hcnt]

/-- The `i`-th entry after `set i` is the stored value. -/
theorem set_getq (l : List α) (i : Nat) (a : α) (h : i < l.length) :
    (l.set i a)[i]? = some a := by
  induction l generalizing i with
  | nil => simp at h
  | cons x xs ih =>
    cases i with
    | zero => simp [List.set]
    | succ j =>
      simp only [List.set, List.getElem?_cons_succ]
      exact ih j (by simpa using h)

/-! ### C4: toggle round-trip -/

/-- C4 counterexample: a plan whose stored progress (50) is stale relative
to its single pending objective does not return to 50 after toggling that
objective on and off — the round trip lands on the objective-derived
value 0. -/
theorem toggle_roundtrip_cex :
    planStale.plan_objectives.map Objective.status = [ObjectiveStatus.pending] ∧
    ((planStale.toggleObjective 0 5).toggleObjective 0 7).progress_percentage ≠
      planStale.progress_percentage := by
  decide

/-- C4 (amended): toggling a pending objective to completed and back
returns the owning plan's `progress_percentage` to its pre-toggle value
provided the stored value agreed with the objective-derived value (as it
does after any `update_progress`); in general the round trip lands on the
objective-derived value. -/
theorem toggle_roundtrip (p : Plan) (i t1 t2 : Nat)
    (hi : i < p.plan_objectives.length)
    (hpend : (p.plan_objectives.get ⟨i, hi⟩).status = ObjectiveStatus.pending)
    (hcons : p.progress_percentage = p.calculate_progress) :
    ((p.toggleObjective i t1).toggleObjective i t2).progress_percentage =
      p.progress_percentage := by
  set l := p.plan_objectives with hl
  set o := l.get ⟨i, hi⟩ with ho
  set x1 := o.toggleSelf t1 with hx1
  set x2 := x1.toggleSelf t2 with hx2
  have hget : l[i]? = some o := by
    rw [List.getElem?_eq_getElem hi]
    rfl
  have hstep1 : p.toggleObjective i t1 =
      Plan.update_progress { p with plan_objectives := l.set i x1 } := by
    unfold Plan.toggleObjective
    rw [← hl, hget]
  set q1 := Plan.update_progress { p with plan_objectives := l.set i x1 }
    with hq1
  have hq1obs : q1.plan_objectives = l.set i x1 := by
    rw [hq1, update_progress_objectives]
  have hget2 : q1.plan_objectives[i]? = some x1 := by
    rw [hq1obs]
    exact set_getq l i x1 hi
  have hstep2 : q1.toggleObjective i t2 =
      Plan.update_progress
        { q1 with plan_objectives := (l.set i x1).set i x2 } := by
    unfold Plan.toggleObjective
    rw [hget2, hq1obs]
  have hx1form : x1 = { o with status := ObjectiveStatus.completed, completed_at := some t1 } := by
    rw [hx1]
    unfold Objective.toggleSelf
    rw [hpend]
    rfl
  have hx2status : x2.status = o.status := by
    rw [hx2, hx1form, hpend]
    rfl
  have hmap : ((l.set i x1).set i x2).map Objective.status =
      l.map Objective.status := by
    rw [List.set_set]
    exact map_status_set l i x2 fun h => hx2status.trans rfl
  rw [hstep1, hstep2, update_progress_progress]
  have hcalc := calculate_progress_congr
    { q1 with plan_objectives := (l.set i x1).set i x2 } p hmap
  rw [hcalc]
  exact hcons.symm

/-- C4 witness: on a plan whose stored progress 0 agrees with its single
pending objective, the toggle round trip restores progress 0. -/
theorem toggle_roundtrip_witness :
    ((planFresh.toggleObjective 0 3).toggleObjective 0 4).progress_percentage =
      planFresh.progress_percentage :=
  toggle_roundtrip planFresh 0 3 4 (by decide) (by decide) (by decide)

/-! ### C3: plan authorization -/

/-- C3: `can_manage_plan` is always true for an admin; for a
single-student plan it returns `can_manage_student` on that student; for
a multi-student plan (no legacy `student` link) and a non-admin actor it
is true exactly when `can_manage_student` holds for at least one
associated student (existential quantification). -/
theorem can_manage_plan_spec (u : User) (p : Plan) :
    (u.is_admin = true → can_manage_plan u p = true) ∧
    (∀ s, p.student = some s →
      can_manage_plan u p = can_manage_student u (some s)) ∧
    (p.student = none → u.is_admin = false →
      (can_manage_plan u p = true ↔
        ∃ sp ∈ p.student_plans, can_manage_student u sp.student = true)) := by
  refine ⟨?_, ?_, ?_⟩
  · intro h
    unfold can_manage_plan
    rw [if_pos h]
  · intro s hs
    unfold can_manage_plan
    by_cases h : u.is_admin
    · rw [if_pos h]
      simp [can_manage_student, h]
    · rw [if_neg h, hs]
  · intro hs hadm
    unfold can_manage_plan
    rw [hs, if_neg (by simp [hadm])]
    exact List.any_eq_true

/-- C3 witness: the teacher linked to teacher profile 7 manages the
three-student plan `multiPlan` because the second student (and only that
one) is assigned to profile 7. -/
theorem can_manage_plan_spec_witness :
    can_manage_plan teacherUser multiPlan = true :=
  ((can_manage_plan_spec teacherUser multiPlan).2.2 rfl rfl).mpr
    ⟨spOf 2 studentB, by decide, by decide⟩

/-! ### C7: create_plan with an empty student selection -/

/-- C7: invoking `create_plan` with an empty student list yields the
validation-error outcome and leaves the store untouched — no `Plan`,
`StudentPlan` or `StudentObjective` row is created. -/
theorem create_plan_empty_students (u : User) (students_db : List Student)
    (db : PlanDB) (form : PlanFormData) (h : form.student_ids = []) :
    create_plan u students_db db form = (db, CreateResult.validation_error) := by
  unfold create_plan
  have hsel : (students_db.filter fun s => form.student_ids.contains s.id) = [] := by
    rw [h]
    simp
  rw [hsel]
  rfl

/-- C7 witness: concrete empty-selection invocation returns the untouched
store and the validation error. -/
theorem create_plan_empty_students_witness :
    create_plan adminUser [studentA] sampleDB emptyStudentsForm =
      (sampleDB, CreateResult.validation_error) :=
  create_plan_empty_students adminUser [studentA] sampleDB emptyStudentsForm rfl

/-! ### Correctness of the binary64 model: logarithm -/

/-- `nlog2` computes the floor of the base-2 logarithm when the fuel
suffices. -/
theorem nlog2_char (fuel : Nat) : ∀ n : Nat, 1 ≤ n → n < 2 ^ fuel →
    2 ^ nlog2 fuel n ≤ n ∧ n < 2 ^ (nlog2 fuel n + 1) := by
  induction fuel with
  | zero =>
    intro n h1 h2
    simp at h2
    omega
  | succ fuel ih =>
    intro n h1 h2
    unfold nlog2
    by_cases hn : n ≤ 1
    · rw [if_pos hn]
      have hone : n = 1 := le_antisymm hn h1
      subst hone
      simp
    · rw [if_neg hn]
      have hdiv1 : 1 ≤ n / 2 := by omega
      have hdiv2 : n / 2 < 2 ^ fuel := by
        rw [pow_succ] at h2
        omega
      obtain ⟨ha, hb⟩ := ih (n / 2) hdiv1 hdiv2
      constructor
      · rw [pow_succ]
        omega
      · rw [pow_succ]
        omega

/-- Characterization of `ratLog2` in ℚ: it is the floor of the base-2
logarithm of `a / b`. -/
theorem ratLog2_char (a b : Nat) (ha : 1 ≤ a) (hb : 1 ≤ b) :
    (2 : ℚ) ^ ratLog2 a b ≤ (a : ℚ) / b ∧
    (a : ℚ) / b < (2 : ℚ) ^ (ratLog2 a b + 1) := by
  set F := nlog2 b b + 1 with hF
  set t := a * 2 ^ F / b with ht
  have hbF : b < 2 ^ F := by
    have := nlog2_char b b hb (Nat.lt_two_pow b)
    rw [hF, pow_succ]
    omega
  have htt : t < 2 ^ t := Nat.lt_two_pow t
  have ht1 : 1 ≤ t := by
    rw [ht]
    have hmul : 2 ^ F ≤ a * 2 ^ F := Nat.le_mul_of_pos_left _ ha
    exact (Nat.one_le_div_iff (by omega)).mpr (by omega)
  set s := nlog2 t t with hs
  obtain ⟨hs1, hs2⟩ := nlog2_char t t ht1 htt
  have hrl : ratLog2 a b = (s : Int) - (F : Int) := rfl
  -- Nat-level bracketing of a * 2 ^ F by powers times b
  have hlow : 2 ^ s * b ≤ a * 2 ^ F := by
    calc 2 ^ s * b ≤ t * b := Nat.mul_le_mul_right b hs1
    _ ≤ a * 2 ^ F := by
      rw [ht]
      exact Nat.div_mul_le_self _ _
  have hhigh : a * 2 ^ F < 2 ^ (s + 1) * b := by
    have hmod := Nat.div_add_mod (a * 2 ^ F) b
    rw [← ht] at hmod
    have hmlt : (a * 2 ^ F) % b < b := Nat.mod_lt _ (by omega)
    have hbt : b * (t + 1) = b * t + b := by ring
    have hstep : a * 2 ^ F < b * (t + 1) := by omega
    have hts : t + 1 ≤ 2 ^ (s + 1) := Nat.succ_le_of_lt hs2
    calc a * 2 ^ F < b * (t + 1) := hstep
    _ ≤ b * 2 ^ (s + 1) := Nat.mul_le_mul_left b hts
    _ = 2 ^ (s + 1) * b := Nat.mul_comm _ _
  -- transfer to ℚ
  have hbq : (0 : ℚ) < b := by exact_mod_cast hb
  have hFq : (0 : ℚ) < (2 : ℚ) ^ F := by positivity
  have hzs : (2 : ℚ) ^ ratLog2 a b = (2 : ℚ) ^ (s : Nat) / (2 : ℚ) ^ (F : Nat) := by
    rw [hrl, zpow_sub₀ (by norm_num : (2 : ℚ) ≠ 0), zpow_natCast, zpow_natCast]
  have hzs1 : (2 : ℚ) ^ (ratLog2 a b + 1) =
      (2 : ℚ) ^ (s + 1 : Nat) / (2 : ℚ) ^ (F : Nat) := by
    rw [hrl, show (s : Int) - (F : Int) + 1 = ((s + 1 : Nat) : Int) - (F : Int) by push_cast; ring,
      zpow_sub₀ (by norm_num : (2 : ℚ) ≠ 0), zpow_natCast, zpow_natCast]
  constructor
  · rw [hzs, div_le_div_iff hFq hbq]
    calc ((2 : ℚ) ^ (s : Nat)) * b = ((2 ^ s * b : Nat) : ℚ) := by push_cast; ring
    _ ≤ ((a * 2 ^ F : Nat) : ℚ) := by exact_mod_cast hlow
    _ = (a : ℚ) * 2 ^ F := by push_cast; ring
  · rw [hzs1, div_lt_div_iff hbq hFq]
    calc (a : ℚ) * 2 ^ F = ((a * 2 ^ F : Nat) : ℚ) := by push_cast; ring
    _ < ((2 ^ (s + 1) * b : Nat) : ℚ) := by exact_mod_cast hhigh
    _ = (2 : ℚ) ^ (s + 1 : Nat) * b := by push_cast; ring

/-! ### Correctness of the binary64 model: rounding error -/

/-- Round-half-even lands within half a unit of the exact quotient. -/
theorem rhe_bounds (a b : Nat) (hb : 1 ≤ b) :
    |(rhe a b : ℚ) - (a : ℚ) / b| ≤ 1 / 2 := by
  have hbq : (0 : ℚ) < b := by exact_mod_cast hb
  have hmodlt : a % b < b := Nat.mod_lt a (by omega)
  have hdecomp : (a : ℚ) = b * ((a / b : Nat) : ℚ) + ((a % b : Nat) : ℚ) := by
    exact_mod_cast (Nat.div_add_mod a b).symm
  have habq : (a : ℚ) / b = ((a / b : Nat) : ℚ) + ((a % b : Nat) : ℚ) / b := by
    rw [hdecomp]
    field_simp
    ring
  have hr0 : (0 : ℚ) ≤ ((a % b : Nat) : ℚ) / b := by positivity
  have hr1 : ((a % b : Nat) : ℚ) / b < 1 := by
    rw [div_lt_one hbq]
    exact_mod_cast hmodlt
  unfold rhe
  split
  · rename_i h
    have hr : ((a % b : Nat) : ℚ) / b < 1 / 2 := by
      rw [div_lt_div_iff hbq (by norm_num : (0 : ℚ) < 2)]
      exact_mod_cast (by omega : (a % b) * 2 < 1 * b)
    rw [abs_le, habq]
    constructor <;> push_cast <;> linarith
  · rename_i h
    split
    · rename_i h2
      have hr : (1 : ℚ) / 2 < ((a % b : Nat) : ℚ) / b := by
        rw [div_lt_div_iff (by norm_num : (0 : ℚ) < 2) hbq]
        exact_mod_cast (by omega : 1 * b < (a % b) * 2)
      rw [abs_le, habq]
      constructor <;> push_cast <;> linarith
    · rename_i h2
      have hr : ((a % b : Nat) : ℚ) / b = 1 / 2 := by
        rw [div_eq_div_iff hbq.ne' (by norm_num : (2 : ℚ) ≠ 0)]
        exact_mod_cast (by omega : (a % b) * 2 = 1 * b)
      split
      · rw [abs_le, habq]
        constructor <;> push_cast <;> linarith
      · rw [abs_le, habq]
        constructor <;> push_cast <;> linarith

/-- The value of an `F64` is nonnegative. -/
theorem F64.val_nonneg (x : F64) : 0 ≤ x.val := by
  unfold F64.val
  positivity

/-- The exponent chosen by `roundPos`. -/
theorem roundPos_g (a b : Nat) :
    (roundPos a b).g = max (ratLog2 a b - 52) (-1074) := by
  unfold roundPos
  dsimp only
  split <;> rfl

/-- `roundPos` lands within half an ulp of the exact quotient. -/
theorem roundPos_err (a b : Nat) (hb : 1 ≤ b) :
    |(roundPos a b).val - (a : ℚ) / b| ≤
      (2 : ℚ) ^ (max (ratLog2 a b - 52) (-1074) - 1) := by
  set g : Int := max (ratLog2 a b - 52) (-1074) with hg
  by_cases hgs : 0 ≤ g
  · have hform : roundPos a b = ⟨rhe a (b * 2 ^ g.toNat), g⟩ := by
      unfold roundPos
      dsimp only
      rw [← hg, if_pos hgs]
    set k := g.toNat with hk
    have hgk : g = (k : Int) := (Int.toNat_of_nonneg hgs).symm
    have hb2 : 1 ≤ b * 2 ^ k :=
      Nat.mul_pos (by omega) (pow_pos (by norm_num) k)
    have herr := rhe_bounds a (b * 2 ^ k) hb2
    push_cast at herr
    have hval : (roundPos a b).val =
        ((rhe a (b * 2 ^ k) : Nat) : ℚ) * (2 : ℚ) ^ g := by
      rw [hform]
      rfl
    have h2kq : (2 : ℚ) ^ g = (2 : ℚ) ^ k := by
      rw [hgk, zpow_natCast]
    have hsplit : (a : ℚ) / b = ((a : ℚ) / ((b : ℚ) * 2 ^ k)) * 2 ^ k := by
      have hbq : (b : ℚ) ≠ 0 := by positivity
      have h2q : ((2 : ℚ) ^ k) ≠ 0 := by positivity
      field_simp
      ring
    have hpow : (2 : ℚ) ^ (g - 1) = 1 / 2 * (2 : ℚ) ^ k := by
      rw [zpow_sub₀ (by norm_num : (2 : ℚ) ≠ 0), hgk, zpow_natCast]
      ring
    rw [hval, h2kq, hsplit, ← sub_mul, abs_mul,
      abs_of_pos (by positivity : (0 : ℚ) < (2 : ℚ) ^ k), hpow]
    exact mul_le_mul_of_nonneg_right herr (by positivity)
  · have hform : roundPos a b = ⟨rhe (a * 2 ^ (-g).toNat) b, g⟩ := by
      unfold roundPos
      dsimp only
      rw [← hg, if_neg hgs]
    set k := (-g).toNat with hk
    have hgk : g = -(k : Int) := by omega
    have herr := rhe_bounds (a * 2 ^ k) b hb
    push_cast at herr
    have hval : (roundPos a b).val =
        ((rhe (a * 2 ^ k) b : Nat) : ℚ) * (2 : ℚ) ^ g := by
      rw [hform]
      rfl
    have h2kq : (2 : ℚ) ^ g = ((2 : ℚ) ^ k)⁻¹ := by
      rw [hgk, zpow_neg, zpow_natCast]
    have hsplit : (a : ℚ) / b = ((a : ℚ) * 2 ^ k / b) * ((2 : ℚ) ^ k)⁻¹ := by
      have hbq : (b : ℚ) ≠ 0 := by positivity
      have h2q : ((2 : ℚ) ^ k) ≠ 0 := by positivity
      field_simp
      ring
    have hpow : (2 : ℚ) ^ (g - 1) = 1 / 2 * ((2 : ℚ) ^ k)⁻¹ := by
      rw [zpow_sub₀ (by norm_num : (2 : ℚ) ≠ 0), hgk, zpow_neg, zpow_natCast]
      ring
    rw [hval, h2kq, hsplit, ← sub_mul, abs_mul,
      abs_of_pos (by positivity : (0 : ℚ) < ((2 : ℚ) ^ k)⁻¹), hpow]
    exact mul_le_mul_of_nonneg_right herr (by positivity)

/-- `ratLog2` is monotone below any power bound. -/
theorem ratLog2_le (a b : Nat) (j : Int) (ha : 1 ≤ a) (hb : 1 ≤ b)
    (hle : (a : ℚ) / b ≤ (2 : ℚ) ^ j) : ratLog2 a b ≤ j := by
  have hchar := (ratLog2_char a b ha hb).1
  exact (zpow_le_zpow_iff_right₀ (by norm_num : (1 : ℚ) < 2)).mp
    (le_trans hchar hle)

/-- Error bound for `fdiv` under an upper power-of-two bound on the
quotient. -/
theorem fdiv_err (a b : Nat) (j : Int) (hb : 1 ≤ b) (hj : -1022 ≤ j)
    (hle : (a : ℚ) / b ≤ (2 : ℚ) ^ j) :
    |(fdiv a b).val - (a : ℚ) / b| ≤ (2 : ℚ) ^ (j - 53) := by
  by_cases ha : a = 0
  · subst ha
    have hzero : fdiv 0 b = ⟨0, 0⟩ := by
      unfold fdiv
      rw [if_pos (Or.inl rfl)]
    rw [hzero]
    have : (F64.mk 0 0).val = 0 := by
      unfold F64.val
      norm_num
    rw [this]
    norm_num
    positivity
  · have ha1 : 1 ≤ a := by omega
    have hfd : fdiv a b = roundPos a b := by
      unfold fdiv
      rw [if_neg (by omega)]
    rw [hfd]
    refine le_trans (roundPos_err a b hb) ?_
    apply zpow_le_zpow_right₀ (by norm_num : (1 : ℚ) ≤ 2)
    have hE := ratLog2_le a b j ha1 hb hle
    omega

/-- `truncNat` is the floor of the value. -/
theorem truncNat_eq_floor (x : F64) : x.truncNat = ⌊x.val⌋₊ := by
  unfold F64.truncNat F64.val
  by_cases hg : 0 ≤ x.g
  · rw [if_pos hg]
    have h2 : (2 : ℚ) ^ x.g = (2 : ℚ) ^ (x.g.toNat : ℕ) := by
      rw [← zpow_natCast]
      congr 1
      omega
    rw [h2, show ((x.m : ℚ)) * (2 : ℚ) ^ x.g.toNat =
      ((x.m * 2 ^ x.g.toNat : Nat) : ℚ) by push_cast; ring]
    rw [Nat.floor_natCast]
  · rw [if_neg hg]
    set k := (-x.g).toNat with hk
    have hgk : x.g = -(k : Int) := by omega
    rw [hgk, zpow_neg, zpow_natCast, ← div_eq_mul_inv,
      show ((2 : ℚ) ^ k) = ((2 ^ k : Nat) : ℚ) by push_cast; ring,
      Nat.floor_div_nat, Nat.floor_natCast]

/-- `mulNat` is one correctly-rounded division whose exact quotient is
the exact product. -/
theorem mulNat_as_fdiv (x : F64) (c : Nat) :
    ∃ a b : Nat, 1 ≤ b ∧ x.mulNat c = fdiv a b ∧
      (a : ℚ) / b = (c : ℚ) * x.val := by
  unfold F64.mulNat
  by_cases hg : 0 ≤ x.g
  · refine ⟨c * x.m * 2 ^ x.g.toNat, 1, le_refl 1, by rw [if_pos hg], ?_⟩
    unfold F64.val
    rw [show (2 : ℚ) ^ x.g = (2 : ℚ) ^ (x.g.toNat : ℕ) by
      rw [← zpow_natCast]
      congr 1
      omega]
    push_cast
    rw [div_one]
    ring
  · refine ⟨c * x.m, 2 ^ (-x.g).toNat, Nat.one_le_two_pow,
      by rw [if_neg hg], ?_⟩
    set k := (-x.g).toNat with hk
    have hgk : x.g = -(k : Int) := by omega
    unfold F64.val
    rw [hgk, zpow_neg, zpow_natCast]
    push_cast
    rw [div_eq_mul_inv]
    ring

/-- The computation `int((K / N) * 100)` in binary64 stays in `[0, 100]`
and lands within one of the exact `⌊100 K / N⌋`. -/
theorem progress_trunc_bounds (K N : Nat) (hN : 1 ≤ N) (hKN : K ≤ N) :
    ((fdiv K N).mulNat 100).truncNat ≤ 100 ∧
    ((fdiv K N).mulNat 100).truncNat ≤ 100 * K / N + 1 ∧
    100 * K / N ≤ ((fdiv K N).mulNat 100).truncNat + 1 := by
  have hNq : (0 : ℚ) < N := by exact_mod_cast hN
  have he53 : (2 : ℚ) ^ ((0 : Int) - 53) = 1 / 9007199254740992 := by norm_num
  have he46 : (2 : ℚ) ^ ((7 : Int) - 53) = 1 / 70368744177664 := by norm_num
  -- first rounding: x = fl(K / N)
  have hq1 : (K : ℚ) / N ≤ (2 : ℚ) ^ (0 : Int) := by
    rw [zpow_zero, div_le_one hNq]
    exact_mod_cast hKN
  have herr1 := fdiv_err K N 0 hN (by norm_num) hq1
  rw [he53] at herr1
  obtain ⟨he1a, he1b⟩ := abs_le.mp herr1
  have hKN1 : (K : ℚ) / N ≤ 1 := by
    rw [div_le_one hNq]
    exact_mod_cast hKN
  have hKN0 : (0 : ℚ) ≤ (K : ℚ) / N := by positivity
  -- second rounding: y = fl(x * 100)
  obtain ⟨a2, b2, hb2, heq2, hval2⟩ := mulNat_as_fdiv (fdiv K N) 100
  have hq2 : (a2 : ℚ) / b2 ≤ (2 : ℚ) ^ (7 : Int) := by
    rw [hval2]
    have h128 : (2 : ℚ) ^ (7 : Int) = 128 := by norm_num
    rw [h128]
    push_cast
    linarith
  have herr2 := fdiv_err a2 b2 7 hb2 (by norm_num) hq2
  rw [he46] at herr2
  obtain ⟨he2a, he2b⟩ := abs_le.mp herr2
  rw [hval2] at he2a he2b
  push_cast at he2a he2b
  have hyval0 : 0 ≤ (fdiv a2 b2).val := F64.val_nonneg _
  -- v = exact 100 K / N and its floor P
  have hvx : ((100 * K : Nat) : ℚ) / N = 100 * ((K : ℚ) / N) := by
    push_cast
    ring
  have hv0 : (0 : ℚ) ≤ ((100 * K : Nat) : ℚ) / N := by positivity
  have hfl : ⌊((100 * K : Nat) : ℚ) / N⌋₊ = 100 * K / N := by
    rw [Nat.floor_div_nat, Nat.floor_natCast]
  have hvP : ((100 * K / N : Nat) : ℚ) ≤ 100 * ((K : ℚ) / N) := by
    rw [← hvx, ← hfl]
    exact Nat.floor_le hv0
  have hvP1 : 100 * ((K : ℚ) / N) < ((100 * K / N : Nat) : ℚ) + 1 := by
    rw [← hvx, ← hfl]
    exact Nat.lt_floor_add_one _
  rw [heq2, truncNat_eq_floor]
  refine ⟨?_, ?_, ?_⟩
  · have hlt : (fdiv a2 b2).val < ((101 : Nat) : ℚ) := by
      push_cast
      linarith
    have := (Nat.floor_lt hyval0).mpr hlt
    omega
  · have hlt : (fdiv a2 b2).val < ((100 * K / N + 2 : Nat) : ℚ) := by
      push_cast
      push_cast at hvP1
      linarith
    have := (Nat.floor_lt hyval0).mpr hlt
    omega
  · by_cases hP : 100 * K / N = 0
    · omega
    · have hP1 : 1 ≤ 100 * K / N := by omega
      have hge : ((100 * K / N - 1 : Nat) : ℚ) ≤ (fdiv a2 b2).val := by
        rw [Nat.cast_sub hP1]
        push_cast
        push_cast at hvP
        linarith
      have := Nat.le_floor hge
      omega

/-! ### C9 and C1: stored progress values -/

/-- C9: for every Plan, the value computed by `calculate_progress` (and
hence the `progress_percentage` stored by `update_progress`) lies in the
inclusive range 0 to 100. -/
theorem progress_percentage_range (p : Plan) :
    (0 ≤ p.calculate_progress ∧ p.calculate_progress ≤ 100) ∧
    0 ≤ (p.update_progress).progress_percentage ∧
    (p.update_progress).progress_percentage ≤ 100 := by
  have hcalc : 0 ≤ p.calculate_progress ∧ p.calculate_progress ≤ 100 := by
    unfold Plan.calculate_progress
    dsimp only
    by_cases h : p.objective_count = 0
    · rw [if_pos h]
      norm_num
    · rw [if_neg h]
      have hN : 1 ≤ p.objective_count := by omega
      have hKN : p.completed_objective_count ≤ p.objective_count :=
        List.length_filter_le _ _
      have hbd := (progress_trunc_bounds _ _ hN hKN).1
      constructor
      · exact Int.ofNat_nonneg _
      · exact_mod_cast hbd
  refine ⟨hcalc, ?_, ?_⟩
  · rw [update_progress_progress]
    exact hcalc.1
  · rw [update_progress_progress]
    exact hcalc.2

/-- C1 (amended): `update_progress` stores 0 when there are no
objectives; when there are `N > 0` objectives of which `K` are completed
it stores the binary64 evaluation of `int((K / N) * 100)`, which lies
within one of `⌊100 K / N⌋` (floating-point rounding can land one below
the exact floor, so exact equality does not always hold). -/
theorem update_progress_value (p : Plan) :
    (p.objective_count = 0 → (p.update_progress).progress_percentage = 0) ∧
    (1 ≤ p.objective_count →
      (p.update_progress).progress_percentage ≤
        ((100 * p.completed_objective_count / p.objective_count : Nat) : Int) + 1 ∧
      ((100 * p.completed_objective_count / p.objective_count : Nat) : Int) ≤
        (p.update_progress).progress_percentage + 1) := by
  constructor
  · intro h
    rw [update_progress_progress]
    unfold Plan.calculate_progress
    dsimp only
    rw [if_pos h]
  · intro hN
    rw [update_progress_progress]
    unfold Plan.calculate_progress
    dsimp only
    rw [if_neg (by omega)]
    have hKN : p.completed_objective_count ≤ p.objective_count :=
      List.length_filter_le _ _
    obtain ⟨h1, h2, h3⟩ := progress_trunc_bounds _ _ hN hKN
    constructor
    · exact_mod_cast h2
    · exact_mod_cast h3

/-- C1 counterexample: a plan with 100 objectives of which 29 are
completed stores progress 28 after `update_progress`, while
`⌊100 * 29 / 100⌋ = 29` — the claimed exact floor formula fails. -/
theorem update_progress_not_floor :
    plan29of100.objective_count = 100 ∧
    plan29of100.completed_objective_count = 29 ∧
    (plan29of100.update_progress).progress_percentage = 28 ∧
    (plan29of100.update_progress).progress_percentage ≠
      ((100 * plan29of100.completed_objective_count /
        plan29of100.objective_count : Nat) : Int) := by
  decide

/-- C1 witness: the amended bounds instantiated at the 29-of-100 plan. -/
theorem update_progress_value_witness :
    (plan29of100.update_progress).progress_percentage ≤
      ((100 * plan29of100.completed_objective_count /
        plan29of100.objective_count : Nat) : Int) + 1 ∧
    ((100 * plan29of100.completed_objective_count /
        plan29of100.objective_count : Nat) : Int) ≤
      (plan29of100.update_progress).progress_percentage + 1 :=
  (update_progress_value plan29of100).2 (by decide)

end TSMS
